import Mathlib

/-
Shallow embedding of the numerical_methods repository (a 1D boundary value
problem solver written in Rust) and proofs about the behaviour of its
operations. Real numbers are modelled by the rationals so that every
definition is executable and equalities are decidable; operations that can
abort at run time (out-of-bounds indexing, integer underflow, an explicit
fatal error, an unsolvable linear system) return Option, with none standing
for the abort.
-/

namespace NumMethods

/-- A grid of points in 1D; field src/grid.rs, struct Grid. -/
structure Grid where
  grid_points : List ℚ
deriving DecidableEq, Repr

/-- A function sampled on a grid; src/grid_function.rs, struct GridFunction. -/
structure GridFunction where
  grid : Grid
  function_values : List ℚ
deriving DecidableEq, Repr

/-- Dirichlet boundary conditions; src/boundary_conditions.rs. -/
structure BoundaryConditions where
  left_bc : ℚ
  right_bc : ℚ
deriving DecidableEq, Repr

/-- Uniform grid constructor; src/grid.rs, Grid::new_uniform_grid. -/
def new_uniform_grid (start_point end_point : ℚ) (num_points : Nat) : Grid :=
  if start_point ≥ end_point ∨ num_points = 0 then
    { grid_points := [] }
  else if num_points = 1 then
    { grid_points := [start_point] }
  else
    let step_size := (end_point - start_point) / ((num_points : ℚ) - 1)
    { grid_points :=
        (List.range num_points).map
          (fun (i : Nat) => start_point + (i : ℚ) * step_size) }

/-- Sampling constructor; src/grid_function.rs, GridFunction::new_grid_function. -/
def new_grid_function (grid : Grid) (func : ℚ → ℚ) : GridFunction :=
  { grid := grid
    function_values := grid.grid_points.map (fun x => func x) }

/-- Constant constructor; src/grid_function.rs, GridFunction::new_constant_grid_function. -/
def new_constant_grid_function (grid : Grid) (scalar : ℚ) : GridFunction :=
  { grid := grid
    function_values := grid.grid_points.map (fun _ => scalar) }

/-- The right-hand operand of an elementwise binary operation is padded with
trailing zeroes up to the length of the left operand when it is shorter
(src/grid_function_arithmetic.rs, the length_difference loop shared by
add, subtract, multiply and divide). -/
def padTo (l : List ℚ) (n : Nat) : List ℚ :=
  l ++ List.replicate (n - l.length) 0

/-- Shared body of the four elementwise operations: pad the right operand,
then combine pairwise with a zip; the result keeps the left operand grid. -/
def elementwise (op : ℚ → ℚ → ℚ) (f g : GridFunction) : GridFunction :=
  { grid := f.grid
    function_values :=
      List.zipWith op f.function_values
        (padTo g.function_values f.function_values.length) }

/-- src/grid_function_arithmetic.rs, GridFunction::add. -/
def GridFunction.add (f g : GridFunction) : GridFunction :=
  elementwise (fun x y => x + y) f g

/-- src/grid_function_arithmetic.rs, GridFunction::subtract. -/
def GridFunction.subtract (f g : GridFunction) : GridFunction :=
  elementwise (fun x y => x - y) f g

/-- src/grid_function_arithmetic.rs, GridFunction::multiply. -/
def GridFunction.multiply (f g : GridFunction) : GridFunction :=
  elementwise (fun x y => x * y) f g

/-- src/grid_function_arithmetic.rs, GridFunction::divide. -/
def GridFunction.divide (f g : GridFunction) : GridFunction :=
  elementwise (fun x y => x / y) f g

/-- src/grid_function_arithmetic.rs, GridFunction::scale. -/
def GridFunction.scale (f : GridFunction) (scalar : ℚ) : GridFunction :=
  { grid := f.grid
    function_values := f.function_values.map (fun x => scalar * x) }

/-- Total list indexing with default 0, used where the Rust code indexes a
vector at a position that the surrounding guard keeps in bounds. -/
def gD (l : List ℚ) (i : Nat) : ℚ :=
  l.getD i 0

/-- Forward difference derivative; src/numerical_differentiation.rs,
GridFunction::forward_difference_derivative. Indexing panics (fewer than 2
grid points, or a value vector shorter than the grid) are modelled by none. -/
def forward_difference_derivative (gf : GridFunction) : Option GridFunction :=
  let xs := gf.grid.grid_points
  let fs := gf.function_values
  let n := xs.length
  if 2 ≤ n ∧ n ≤ fs.length then
    some
      { grid := gf.grid
        function_values :=
          ((gD fs 1 - gD fs 0) / (gD xs 1 - gD xs 0)) ::
          ((List.range' 1 (n - 2)).map
            (fun i => (gD fs (i + 1) - gD fs i) / (gD xs (i + 1) - gD xs i)) ++
          [(gD fs (n - 1) - gD fs (n - 2)) / (gD xs (n - 1) - gD xs (n - 2))]) }
  else none

/-- Central difference derivative; src/numerical_differentiation.rs,
GridFunction::central_difference_derivative. First point forward, interior
central, last point backward; panics are modelled by none. -/
def central_difference_derivative (gf : GridFunction) : Option GridFunction :=
  let xs := gf.grid.grid_points
  let fs := gf.function_values
  let n := xs.length
  if 2 ≤ n ∧ n ≤ fs.length then
    some
      { grid := gf.grid
        function_values :=
          ((gD fs 1 - gD fs 0) / (gD xs 1 - gD xs 0)) ::
          ((List.range' 1 (n - 2)).map
            (fun i => (gD fs (i + 1) - gD fs (i - 1)) / (gD xs (i + 1) - gD xs (i - 1))) ++
          [(gD fs (n - 1) - gD fs (n - 2)) / (gD xs (n - 1) - gD xs (n - 2))]) }
  else none

/-- Lagrange-basis coefficients of the quadratic through three points;
src/quadratic_interpolation.rs, quadratic_interpolation_coefficients. -/
def quadratic_interpolation_coefficients (points : ℚ × ℚ × ℚ)
    (function_values : ℚ × ℚ × ℚ) : ℚ × ℚ × ℚ :=
  let x0 := points.1
  let x1 := points.2.1
  let x2 := points.2.2
  let f0 := function_values.1
  let f1 := function_values.2.1
  let f2 := function_values.2.2
  let d0 := f0 / ((x0 - x1) * (x0 - x2))
  let d1 := f1 / ((x1 - x0) * (x1 - x2))
  let d2 := f2 / ((x2 - x0) * (x2 - x1))
  (d0 + d1 + d2,
   -(d0 * (x1 + x2)) - (d1 * (x0 + x2)) - (d2 * (x0 + x1)),
   (d0 * x1 * x2) + (d1 * x0 * x2) + (d2 * x0 * x1))

/-- Closed-form definite integral of a quadratic polynomial;
src/quadratic_interpolation.rs, quadratic_integral. -/
def quadratic_integral (coefficients : ℚ × ℚ × ℚ)
    (lower_limit upper_limit : ℚ) : ℚ :=
  let a := coefficients.1
  let b := coefficients.2.1
  let c := coefficients.2.2
  let integral_upper :=
    (a / 3) * upper_limit ^ 3 + (b / 2) * upper_limit ^ 2 + c * upper_limit
  let integral_lower :=
    (a / 3) * lower_limit ^ 3 + (b / 2) * lower_limit ^ 2 + c * lower_limit
  integral_upper - integral_lower

/-- Contribution of the triple of grid points starting at index n to the
composite Simpson sum: the closed-form integral, over the span of the
triple, of the quadratic interpolating the three (x, f(x)) pairs. -/
def simpsonTriple (xs fs : List ℚ) (n : Nat) : ℚ :=
  quadratic_integral
    (quadratic_interpolation_coefficients
      (gD xs n, gD xs (n + 1), gD xs (n + 2))
      (gD fs n, gD fs (n + 1), gD fs (n + 2)))
    (gD xs n) (gD xs (n + 2))

/-- Composite Simpson integration; src/numerical_integration.rs,
GridFunction::integrate_composite_simpsons_rule. The explicit fatal error on
an even point count, the usize underflow of num_points - 2 on a one-point
grid, and out-of-bounds indexing into a short value vector are all aborts,
modelled by none. The loop runs n = 0, 2, 4, ... while n < num_points - 2. -/
def integrate_composite_simpsons_rule (gf : GridFunction) : Option ℚ :=
  let xs := gf.grid.grid_points
  let fs := gf.function_values
  let num_points := xs.length
  if num_points % 2 = 0 then none
  else if num_points < 2 then none
  else if fs.length < num_points then none
  else
    some (((List.range' 0 ((num_points - 1) / 2) 2).map
      (fun n => simpsonTriple xs fs n)).sum)

/-- A copy of the trial with value j perturbed upward by the step size;
src/boundary_value_problems.rs, the perturbed_grid_func local of
get_jacobian_matrix. -/
def perturbValue (gf : GridFunction) (j : Nat) (step_size : ℚ) : GridFunction :=
  { grid := gf.grid
    function_values :=
      gf.function_values.set j (gD gf.function_values j + step_size) }

/-- One entry of the Jacobian: boundary rows are identity rows, interior rows
hold the forward-difference estimate of the partial derivative;
src/boundary_value_problems.rs, the body of the nested loop in
get_jacobian_matrix. Out-of-bounds access into the output of the operator is
an abort, modelled by none. -/
def jacobianEntry (de_func : GridFunction → GridFunction) (gf : GridFunction)
    (step_size : ℚ) (matrix_size i j : Nat) : Option ℚ :=
  if i = 0 then some (if j = 0 then 1 else 0)
  else if i = matrix_size - 1 then some (if j = matrix_size - 1 then 1 else 0)
  else
    Option.bind (de_func (perturbValue gf j step_size)).function_values[i]?
      (fun fp =>
        Option.bind (de_func gf).function_values[i]?
          (fun fb => some ((fp - fb) / step_size)))

/-- Option-valued map over a list, failing as soon as one element fails:
the sequencing of fallible loop iterations. -/
def optionMap (f : α → Option β) : List α → Option (List β)
  | [] => some []
  | a :: as =>
    Option.bind (f a) (fun b =>
      Option.bind (optionMap f as) (fun bs => some (b :: bs)))

/-- Jacobian matrix of the operator at the trial, flat in row-major order;
src/boundary_value_problems.rs, get_jacobian_matrix. -/
def get_jacobian_matrix (de_func : GridFunction → GridFunction)
    (gf : GridFunction) (step_size : ℚ) : Option (List ℚ) :=
  let matrix_size := gf.function_values.length
  (optionMap (fun i =>
    optionMap (fun j => jacobianEntry de_func gf step_size matrix_size i j)
      (List.range matrix_size))
    (List.range matrix_size)).map List.flatten

/-- Residual vector with the first and last entries replaced by the
boundary-condition mismatches; src/boundary_value_problems.rs,
get_residual_vector. Indexing an empty residual, or a trial value vector
shorter than the residual, is an abort, modelled by none. -/
def get_residual_vector (de_func : GridFunction → GridFunction)
    (gf : GridFunction) (boundary_conditions : BoundaryConditions) :
    Option (List ℚ) :=
  let residual := (de_func gf).function_values
  let length := residual.length
  Option.bind gf.function_values[0]? (fun v0 =>
    Option.bind gf.function_values[length - 1]? (fun vlast =>
      if length = 0 then none
      else
        some ((residual.set 0 (v0 - boundary_conditions.left_bc)).set
          (length - 1) (vlast - boundary_conditions.right_bc))))

/-- Dot product of two coefficient lists. -/
def dotProd (a b : List ℚ) : ℚ :=
  (List.zipWith (fun x y => x * y) a b).sum

/-- Finds the first augmented row whose leading coefficient is nonzero and
returns it together with the remaining rows; part of the model of the
nalgebra LU solve used by solve_linear_system. -/
def pivotSplit : List (List ℚ × ℚ) → Option ((List ℚ × ℚ) × List (List ℚ × ℚ))
  | [] => none
  | r :: rs =>
    if r.1.headD 0 ≠ 0 then some (r, rs)
    else
      match pivotSplit rs with
      | some (p, rest) => some (p, r :: rest)
      | none => none

/-- Eliminates the leading coefficient of an augmented row against a pivot
row and drops the leading column. -/
def elimRow (p r : List ℚ × ℚ) : List ℚ × ℚ :=
  let factor := r.1.headD 0 / p.1.headD 0
  ((List.zipWith (fun x y => x - factor * y) r.1 p.1).tail,
   r.2 - factor * p.2)

/-- Forward elimination of an augmented system into triangular form; none
when no nonzero pivot exists (a singular matrix, on which the Rust code
panics through unwrap). -/
def gaussTriangular : Nat → List (List ℚ × ℚ) → Option (List (List ℚ × ℚ))
  | 0, _ => some []
  | k + 1, rows =>
    Option.bind (pivotSplit rows) (fun pr =>
      Option.bind (gaussTriangular k (pr.2.map (elimRow pr.1)))
        (fun tri => some (pr.1 :: tri)))

/-- Back substitution through a triangular augmented system, producing one
solution component per row. -/
def backSubst : List (List ℚ × ℚ) → List ℚ
  | [] => []
  | r :: rs =>
    let xs := backSubst rs
    ((r.2 - dotProd r.1.tail xs) / r.1.headD 0) :: xs

/-- Modelled from the dependency boundary: src/boundary_value_problems.rs,
solve_linear_system delegates to the nalgebra LU decomposition, whose code
is outside this repository; per its documented contract it returns the
solution of matrix * solution = vector, panicking (unwrap) when the system
cannot be solved. Modelled as exact Gaussian elimination over the rationals,
with none for the panic and for dimension mismatches. -/
def solve_linear_system (matrix vector : List ℚ) (matrix_size : Nat) :
    Option (List ℚ) :=
  if matrix.length = matrix_size * matrix_size ∧ vector.length = matrix_size then
    (gaussTriangular matrix_size
      ((List.range matrix_size).map
        (fun i => ((matrix.drop (i * matrix_size)).take matrix_size,
                   gD vector i)))).map backSubst
  else none

/-- Row-major matrix-vector product, used to state what a returned solution
of the linear system satisfies. -/
def matVecMul (matrix : List ℚ) (matrix_size : Nat) (v : List ℚ) : List ℚ :=
  (List.range matrix_size).map
    (fun i => dotProd ((matrix.drop (i * matrix_size)).take matrix_size) v)

/-- One Newton step: assemble the Jacobian and residual, solve the linear
system with the residual itself as right-hand side, and add the solution to
the trial values; src/boundary_value_problems.rs, newtons_method_step. -/
def newtons_method_step (de_func : GridFunction → GridFunction)
    (grid_func_guess : GridFunction)
    (boundary_conditions : BoundaryConditions) (step_size : ℚ) :
    Option GridFunction :=
  let matrix_size := grid_func_guess.function_values.length
  Option.bind (get_jacobian_matrix de_func grid_func_guess step_size)
    (fun jacobian_matrix =>
      Option.bind
        (get_residual_vector de_func grid_func_guess boundary_conditions)
        (fun residual_vector =>
          Option.bind
            (solve_linear_system jacobian_matrix residual_vector matrix_size)
            (fun grid_func_update =>
              some
                { grid := grid_func_guess.grid
                  function_values :=
                    List.zipWith (fun x y => x + y)
                      grid_func_guess.function_values grid_func_update })))

/-- Newton driver: applies newtons_method_step a fixed number of times with
the hard-coded perturbation step 1e-6; src/boundary_value_problems.rs,
newtons_method. -/
def newtons_method (de_func : GridFunction → GridFunction)
    (boundary_conditions : BoundaryConditions)
    (grid_func_initial_guess : GridFunction) :
    Nat → Option GridFunction
  | 0 => some grid_func_initial_guess
  | num_iterations + 1 =>
    (newtons_method_step de_func grid_func_initial_guess boundary_conditions
        (1 / 1000000)).bind
      (fun g => newtons_method de_func boundary_conditions g num_iterations)

/-! ## Helper lemmas -/

theorem gD_cons_zero (a : ℚ) (l : List ℚ) : gD (a :: l) 0 = a :=
  List.getD_cons_zero

theorem gD_cons_succ (a : ℚ) (l : List ℚ) (i : Nat) :
    gD (a :: l) (i + 1) = gD l i :=
  List.getD_cons_succ

theorem gD_eq_getElem (l : List ℚ) (i : Nat) (h : i < l.length) :
    gD l i = l[i] := by
  simp [gD, List.getD_eq_getElem?_getD, List.getElem?_eq_getElem h]

theorem padTo_length (l : List ℚ) (n : Nat) :
    (padTo l n).length = max l.length n := by
  simp only [padTo, List.length_append, List.length_replicate]
  omega

theorem elementwise_values_length (op : ℚ → ℚ → ℚ) (f g : GridFunction) :
    (elementwise op f g).function_values.length =
      f.function_values.length := by
  simp only [elementwise, List.length_zipWith, padTo_length]
  omega

theorem gD_zipWith (op : ℚ → ℚ → ℚ) :
    ∀ (a b : List ℚ) (i : Nat), i < a.length → i < b.length →
      gD (List.zipWith op a b) i = op (gD a i) (gD b i) := by
  intro a
  induction a with
  | nil =>
    intro b i h1 _
    exact absurd h1 (by simp)
  | cons x xs ih =>
    intro b i h1 h2
    cases b with
    | nil => exact absurd h2 (by simp)
    | cons y ys =>
      cases i with
      | zero => simp [gD_cons_zero]
      | succ i =>
        rw [List.zipWith_cons_cons, gD_cons_succ, gD_cons_succ, gD_cons_succ]
        exact ih ys i (by simpa using h1) (by simpa using h2)

theorem gD_padTo (l : List ℚ) (n i : Nat) (hi : i < n) :
    gD (padTo l n) i = if i < l.length then gD l i else 0 := by
  rw [gD, List.getD_eq_getElem?_getD, padTo, List.getElem?_append]
  by_cases h : i < l.length
  · rw [if_pos h, if_pos h, List.getElem?_eq_getElem h]
    simp [gD, List.getD_eq_getElem?_getD, List.getElem?_eq_getElem h]
  · rw [if_neg h, if_neg h]
    have hrep : i - l.length < n - l.length := by omega
    simp [List.getElem?_replicate, hrep]

theorem elementwise_gD (op : ℚ → ℚ → ℚ) (f g : GridFunction) (i : Nat)
    (hi : i < f.function_values.length) :
    gD (elementwise op f g).function_values i =
      op (gD f.function_values i)
        (if i < g.function_values.length then gD g.function_values i else 0) := by
  have hp : i < (padTo g.function_values f.function_values.length).length := by
    rw [padTo_length]
    omega
  show gD (List.zipWith op f.function_values
    (padTo g.function_values f.function_values.length)) i = _
  rw [gD_zipWith op _ _ i hi hp, gD_padTo _ _ _ hi]

theorem padTo_self (l : List ℚ) : padTo l l.length = l := by
  simp [padTo]

/-! ## Claim theorems -/

/-- C7. new_uniform_grid returns the empty grid when the interval is
degenerate or the point count is zero, the single point [start] when the
count is one, and otherwise the points start + i * spacing with spacing
(end - start) / (count - 1). -/
theorem new_uniform_grid_spec (start_point end_point : ℚ) (num_points : Nat) :
    (start_point ≥ end_point ∨ num_points = 0 →
      (new_uniform_grid start_point end_point num_points).grid_points = []) ∧
    (start_point < end_point → num_points = 1 →
      (new_uniform_grid start_point end_point num_points).grid_points =
        [start_point]) ∧
    (start_point < end_point → 2 ≤ num_points →
      (new_uniform_grid start_point end_point num_points).grid_points.length =
          num_points ∧
      ∀ i : Nat, i < num_points →
        gD (new_uniform_grid start_point end_point num_points).grid_points i =
          start_point + (i : ℚ) *
            ((end_point - start_point) / ((num_points : ℚ) - 1))) := by
  refine ⟨?_, ?_, ?_⟩
  · rintro (h | h)
    · simp [new_uniform_grid, h]
    · simp [new_uniform_grid, h]
  · intro hlt h1
    simp [new_uniform_grid, h1, not_le.mpr hlt]
  · intro hlt h2
    have h1 : ¬ num_points = 1 := by omega
    have h0 : ¬ num_points = 0 := by omega
    have hlen :
        (new_uniform_grid start_point end_point num_points).grid_points.length =
          num_points := by
      simp [new_uniform_grid, h0, h1, not_le.mpr hlt]
    refine ⟨hlen, fun i hi => ?_⟩
    have hi' : i < (new_uniform_grid start_point end_point num_points).grid_points.length := by
      omega
    rw [gD, List.getD_eq_getElem?_getD, List.getElem?_eq_getElem hi',
      Option.getD_some]
    simp only [new_uniform_grid, h0, h1, not_le.mpr hlt, or_false, if_false,
      if_neg]
    rw [List.getElem_map, List.getElem_range]

/-- C3. Each elementwise binary operation keeps the left operand grid and
the left operand length, and combines the left value at index i with the
right value there when it exists and with 0 when the right operand is
shorter. -/
theorem elementwise_ops_spec (f g : GridFunction) :
    ((f.add g).grid = f.grid ∧ (f.subtract g).grid = f.grid ∧
      (f.multiply g).grid = f.grid ∧ (f.divide g).grid = f.grid) ∧
    ((f.add g).function_values.length = f.function_values.length ∧
      (f.subtract g).function_values.length = f.function_values.length ∧
      (f.multiply g).function_values.length = f.function_values.length ∧
      (f.divide g).function_values.length = f.function_values.length) ∧
    (∀ i : Nat, i < f.function_values.length →
      (gD (f.add g).function_values i =
        gD f.function_values i +
          (if i < g.function_values.length then gD g.function_values i else 0)) ∧
      (gD (f.subtract g).function_values i =
        gD f.function_values i -
          (if i < g.function_values.length then gD g.function_values i else 0)) ∧
      (gD (f.multiply g).function_values i =
        gD f.function_values i *
          (if i < g.function_values.length then gD g.function_values i else 0)) ∧
      (gD (f.divide g).function_values i =
        gD f.function_values i /
          (if i < g.function_values.length then gD g.function_values i else 0))) := by
  refine ⟨⟨rfl, rfl, rfl, rfl⟩,
    ⟨elementwise_values_length _ f g, elementwise_values_length _ f g,
      elementwise_values_length _ f g, elementwise_values_length _ f g⟩,
    fun i hi => ⟨elementwise_gD _ f g i hi, elementwise_gD _ f g i hi,
      elementwise_gD _ f g i hi, elementwise_gD _ f g i hi⟩⟩

/-- C3 witness: the characterization evaluated on a concrete pair in which
the right operand is shorter than the left. -/
theorem elementwise_ops_spec_witness :
    (0 : Nat) < 2 ∧
    gD ((⟨⟨[0, 1]⟩, [1, 2]⟩ : GridFunction).add ⟨⟨[5]⟩, [10]⟩).function_values 1 =
      gD [1, 2] 1 + (if (1 : Nat) < ([10] : List ℚ).length then gD [10] 1 else 0) := by
  refine ⟨by norm_num, ?_⟩
  exact ((elementwise_ops_spec ⟨⟨[0, 1]⟩, [1, 2]⟩ ⟨⟨[5]⟩, [10]⟩).2.2 1
    (by norm_num)).1

theorem padTo_of_length_le (l : List ℚ) (n : Nat) (h : n ≤ l.length) :
    padTo l n = l := by
  simp [padTo, Nat.sub_eq_zero_of_le h]

/-- C8 counterexample: two GridFunctions with value sequences of the same
length but different grids; add keeps the left operand grid, so the two
sums differ as GridFunctions. -/
theorem add_comm_counterexample :
    ((⟨⟨[0]⟩, [1]⟩ : GridFunction).function_values.length =
      (⟨⟨[5]⟩, [2]⟩ : GridFunction).function_values.length) ∧
    (⟨⟨[0]⟩, [1]⟩ : GridFunction).add ⟨⟨[5]⟩, [2]⟩ ≠
      (⟨⟨[5]⟩, [2]⟩ : GridFunction).add ⟨⟨[0]⟩, [1]⟩ := by
  refine ⟨rfl, ?_⟩
  intro h
  have hg := congrArg (fun gf => gf.grid.grid_points) h
  norm_num [GridFunction.add, elementwise] at hg

/-- C8 amended. When the two value sequences have exactly the same length,
add and multiply commute on the value sequences; the results are equal as
GridFunctions exactly when the grids also coincide, since each operation
keeps the left operand grid. -/
theorem add_multiply_comm_spec (f g : GridFunction)
    (hlen : f.function_values.length = g.function_values.length) :
    (f.add g).function_values = (g.add f).function_values ∧
    (f.multiply g).function_values = (g.multiply f).function_values ∧
    (f.grid = g.grid → f.add g = g.add f ∧ f.multiply g = g.multiply f) := by
  have hpad1 : padTo g.function_values f.function_values.length =
      g.function_values :=
    padTo_of_length_le _ _ (le_of_eq hlen)
  have hpad2 : padTo f.function_values g.function_values.length =
      f.function_values :=
    padTo_of_length_le _ _ (le_of_eq hlen.symm)
  have hadd : (f.add g).function_values = (g.add f).function_values := by
    simp only [GridFunction.add, elementwise, hpad1, hpad2]
    exact List.zipWith_comm_of_comm _ (fun x y => add_comm x y) _ _
  have hmul : (f.multiply g).function_values = (g.multiply f).function_values := by
    simp only [GridFunction.multiply, elementwise, hpad1, hpad2]
    exact List.zipWith_comm_of_comm _ (fun x y => mul_comm x y) _ _
  refine ⟨hadd, hmul, fun hgrid => ⟨?_, ?_⟩⟩
  · cases f with
    | mk fg fv =>
      cases g with
      | mk gg gv =>
        simp only [GridFunction.add, elementwise] at *
        simp_all
  · cases f with
    | mk fg fv =>
      cases g with
      | mk gg gv =>
        simp only [GridFunction.multiply, elementwise] at *
        simp_all

/-- C8 witness: commutativity instantiated on concrete equal-length
GridFunctions over the same grid. -/
theorem add_multiply_comm_spec_witness :
    (([1, 2] : List ℚ).length = ([3, 4] : List ℚ).length) ∧
    (⟨⟨[0, 1]⟩, [1, 2]⟩ : GridFunction).add ⟨⟨[0, 1]⟩, [3, 4]⟩ =
      (⟨⟨[0, 1]⟩, [3, 4]⟩ : GridFunction).add ⟨⟨[0, 1]⟩, [1, 2]⟩ :=
  ⟨rfl, ((add_multiply_comm_spec ⟨⟨[0, 1]⟩, [1, 2]⟩ ⟨⟨[0, 1]⟩, [3, 4]⟩
    rfl).2.2 rfl).1⟩

set_option maxHeartbeats 3200000 in
/-- C6. With pairwise distinct sample points the returned coefficients make
the quadratic pass through all three points, and sampling a quadratic at
three distinct points and interpolating reproduces its coefficients. -/
theorem quadratic_interpolation_coefficients_spec
    (x0 x1 x2 f0 f1 f2 a b c : ℚ)
    (h01 : x0 ≠ x1) (h02 : x0 ≠ x2) (h12 : x1 ≠ x2) :
    ((quadratic_interpolation_coefficients (x0, x1, x2) (f0, f1, f2)).1 * x0 ^ 2 +
      (quadratic_interpolation_coefficients (x0, x1, x2) (f0, f1, f2)).2.1 * x0 +
      (quadratic_interpolation_coefficients (x0, x1, x2) (f0, f1, f2)).2.2 = f0 ∧
     (quadratic_interpolation_coefficients (x0, x1, x2) (f0, f1, f2)).1 * x1 ^ 2 +
      (quadratic_interpolation_coefficients (x0, x1, x2) (f0, f1, f2)).2.1 * x1 +
      (quadratic_interpolation_coefficients (x0, x1, x2) (f0, f1, f2)).2.2 = f1 ∧
     (quadratic_interpolation_coefficients (x0, x1, x2) (f0, f1, f2)).1 * x2 ^ 2 +
      (quadratic_interpolation_coefficients (x0, x1, x2) (f0, f1, f2)).2.1 * x2 +
      (quadratic_interpolation_coefficients (x0, x1, x2) (f0, f1, f2)).2.2 = f2) ∧
    quadratic_interpolation_coefficients (x0, x1, x2)
      (a * x0 ^ 2 + b * x0 + c, a * x1 ^ 2 + b * x1 + c,
        a * x2 ^ 2 + b * x2 + c) = (a, b, c) := by
  have n01 : x0 - x1 ≠ 0 := sub_ne_zero.mpr h01
  have n02 : x0 - x2 ≠ 0 := sub_ne_zero.mpr h02
  have n12 : x1 - x2 ≠ 0 := sub_ne_zero.mpr h12
  have n10 : x1 - x0 ≠ 0 := sub_ne_zero.mpr (Ne.symm h01)
  have n20 : x2 - x0 ≠ 0 := sub_ne_zero.mpr (Ne.symm h02)
  have n21 : x2 - x1 ≠ 0 := sub_ne_zero.mpr (Ne.symm h12)
  simp only [quadratic_interpolation_coefficients, Prod.mk.injEq]
  refine ⟨⟨?_, ?_, ?_⟩, ?_, ?_, ?_⟩ <;>
    (field_simp; ring)

/-- C6 witness: interpolation through the three samples of x ^ 2 at 0, 1, 2
returns the coefficients (1, 0, 0). -/
theorem quadratic_interpolation_coefficients_spec_witness :
    ((0 : ℚ) ≠ 1 ∧ (0 : ℚ) ≠ 2 ∧ (1 : ℚ) ≠ 2) ∧
    quadratic_interpolation_coefficients ((0 : ℚ), 1, 2)
      (1 * 0 ^ 2 + 0 * 0 + 0, 1 * 1 ^ 2 + 0 * 1 + 0, 1 * 2 ^ 2 + 0 * 2 + 0) =
      (1, 0, 0) := by
  refine ⟨⟨by norm_num, by norm_num, by norm_num⟩, ?_⟩
  exact (quadratic_interpolation_coefficients_spec 0 1 2
    (1 * 0 ^ 2 + 0 * 0 + 0) (1 * 1 ^ 2 + 0 * 1 + 0) (1 * 2 ^ 2 + 0 * 2 + 0)
    1 0 0 (by norm_num) (by norm_num) (by norm_num)).2

/-- C7 witness: the uniform grid from 0 to 1 with 3 points has point 2 at
0 + 2 * ((1 - 0) / (3 - 1)). -/
theorem new_uniform_grid_spec_witness :
    (0 : ℚ) < 1 ∧ 2 ≤ 3 ∧
    gD (new_uniform_grid 0 1 3).grid_points 2 =
      0 + (2 : ℚ) * ((1 - 0) / ((3 : ℚ) - 1)) := by
  refine ⟨by norm_num, by norm_num, ?_⟩
  have h := ((new_uniform_grid_spec 0 1 3).2.2 (by norm_num) (by norm_num)).2
    2 (by norm_num)
  simpa using h

/-- C5. On at least 2 grid points with values matching the grid in length,
the central difference derivative succeeds, keeps the grid and the length,
uses a forward difference at the first point, the central stencil at
interior points, and a backward difference at the last point. -/
theorem central_difference_derivative_spec (gf : GridFunction)
    (h2 : 2 ≤ gf.grid.grid_points.length)
    (hlen : gf.function_values.length = gf.grid.grid_points.length) :
    ∃ r, central_difference_derivative gf = some r ∧ r.grid = gf.grid ∧
      r.function_values.length = gf.grid.grid_points.length ∧
      gD r.function_values 0 =
        (gD gf.function_values 1 - gD gf.function_values 0) /
          (gD gf.grid.grid_points 1 - gD gf.grid.grid_points 0) ∧
      (∀ i : Nat, 0 < i → i + 1 < gf.grid.grid_points.length →
        gD r.function_values i =
          (gD gf.function_values (i + 1) - gD gf.function_values (i - 1)) /
            (gD gf.grid.grid_points (i + 1) - gD gf.grid.grid_points (i - 1))) ∧
      gD r.function_values (gf.grid.grid_points.length - 1) =
        (gD gf.function_values (gf.grid.grid_points.length - 1) -
          gD gf.function_values (gf.grid.grid_points.length - 2)) /
          (gD gf.grid.grid_points (gf.grid.grid_points.length - 1) -
            gD gf.grid.grid_points (gf.grid.grid_points.length - 2)) := by
  obtain ⟨⟨xs⟩, fs⟩ := gf
  dsimp only at h2 hlen ⊢
  have hguard : 2 ≤ xs.length ∧ xs.length ≤ fs.length := ⟨h2, le_of_eq hlen.symm⟩
  have hmain : central_difference_derivative ⟨⟨xs⟩, fs⟩ =
      some ⟨⟨xs⟩,
        ((gD fs 1 - gD fs 0) / (gD xs 1 - gD xs 0)) ::
        ((List.range' 1 (xs.length - 2)).map
          (fun i => (gD fs (i + 1) - gD fs (i - 1)) /
            (gD xs (i + 1) - gD xs (i - 1))) ++
        [(gD fs (xs.length - 1) - gD fs (xs.length - 2)) /
          (gD xs (xs.length - 1) - gD xs (xs.length - 2))])⟩ := by
    rw [central_difference_derivative]
    rw [if_pos hguard]
  have hmidlen : ((List.range' 1 (xs.length - 2)).map
      (fun i => (gD fs (i + 1) - gD fs (i - 1)) /
        (gD xs (i + 1) - gD xs (i - 1)))).length = xs.length - 2 := by
    simp [List.length_map, List.length_range']
  refine ⟨_, hmain, rfl, ?_, ?_, ?_, ?_⟩
  · simp only [List.length_cons, List.length_append, hmidlen,
      List.length_singleton, List.length_nil]
    omega
  · exact gD_cons_zero _ _
  · intro i h0 hin
    have hi1 : i - 1 + 1 = i := by omega
    rw [← hi1, gD_cons_succ, hi1]
    have hb : i - 1 < (((List.range' 1 (xs.length - 2)).map
        (fun i => (gD fs (i + 1) - gD fs (i - 1)) /
          (gD xs (i + 1) - gD xs (i - 1)))) ++
        [(gD fs (xs.length - 1) - gD fs (xs.length - 2)) /
          (gD xs (xs.length - 1) - gD xs (xs.length - 2))]).length := by
      simp only [List.length_append, hmidlen, List.length_singleton]
      omega
    rw [gD_eq_getElem _ _ hb, List.getElem_append]
    rw [dif_pos (by rw [hmidlen]; omega)]
    rw [List.getElem_map, List.getElem_range']
    have harg : 1 + 1 * (i - 1) = i := by omega
    rw [harg]
  · have hn1 : xs.length - 1 = (xs.length - 2) + 1 := by omega
    rw [hn1, gD_cons_succ]
    rw [gD_eq_getElem _ _ (by
      simp only [List.length_append, hmidlen, List.length_singleton,
        List.length_cons, List.length_nil]
      omega)]
    rw [List.getElem_append]
    rw [dif_neg (by rw [hmidlen]; omega)]
    simp [hmidlen]

/-- C5 witness: the central difference derivative of x ^ 2 sampled on
0, 1, 2, 3 succeeds and satisfies the stencil characterization. -/
theorem central_difference_derivative_spec_witness :
    2 ≤ ([0, 1, 2, 3] : List ℚ).length ∧
    ([0, 1, 4, 9] : List ℚ).length = ([0, 1, 2, 3] : List ℚ).length ∧
    ∃ r, central_difference_derivative ⟨⟨[0, 1, 2, 3]⟩, [0, 1, 4, 9]⟩ = some r ∧
      r.grid = (⟨⟨[0, 1, 2, 3]⟩, [0, 1, 4, 9]⟩ : GridFunction).grid ∧
      r.function_values.length = ([0, 1, 2, 3] : List ℚ).length ∧
      gD r.function_values 0 =
        (gD [0, 1, 4, 9] 1 - gD [0, 1, 4, 9] 0) /
          (gD [0, 1, 2, 3] 1 - gD [0, 1, 2, 3] 0) ∧
      (∀ i : Nat, 0 < i → i + 1 < ([0, 1, 2, 3] : List ℚ).length →
        gD r.function_values i =
          (gD [0, 1, 4, 9] (i + 1) - gD [0, 1, 4, 9] (i - 1)) /
            (gD [0, 1, 2, 3] (i + 1) - gD [0, 1, 2, 3] (i - 1))) ∧
      gD r.function_values (([0, 1, 2, 3] : List ℚ).length - 1) =
        (gD [0, 1, 4, 9] (([0, 1, 2, 3] : List ℚ).length - 1) -
          gD [0, 1, 4, 9] (([0, 1, 2, 3] : List ℚ).length - 2)) /
          (gD [0, 1, 2, 3] (([0, 1, 2, 3] : List ℚ).length - 1) -
            gD [0, 1, 2, 3] (([0, 1, 2, 3] : List ℚ).length - 2)) :=
  ⟨by norm_num, by norm_num,
    central_difference_derivative_spec ⟨⟨[0, 1, 2, 3]⟩, [0, 1, 4, 9]⟩
      (by norm_num) (by norm_num)⟩

theorem sum_map_range'_two (f : Nat → ℚ) :
    ∀ (m a : Nat), ((List.range' a m 2).map f).sum =
      ∑ k in Finset.range m, f (a + 2 * k) := by
  intro m
  induction m with
  | zero => intro a; simp
  | succ m ih =>
    intro a
    rw [List.range'_succ, List.map_cons, List.sum_cons, ih (a + 2),
      Finset.sum_range_succ']
    have h2 : a + 2 * 0 = a := by omega
    rw [h2, add_comm]
    congr 1
    exact Finset.sum_congr rfl (fun k _ => by congr 1; omega)

/-- C2 counterexample: a GridFunction on a single grid point has an odd
number of grid points, yet composite Simpson integration aborts on it (the
usize subtraction num_points - 2 underflows), so the code does not abort
exactly on even point counts. -/
theorem simpsons_rule_odd_abort_counterexample :
    (1 : Nat) % 2 = 1 ∧
    (⟨⟨[0]⟩, [5]⟩ : GridFunction).grid.grid_points.length = 1 ∧
    integrate_composite_simpsons_rule ⟨⟨[0]⟩, [5]⟩ = none :=
  ⟨rfl, rfl, rfl⟩

/-- C2 amended. With the value sequence at least as long as the grid,
composite Simpson integration aborts exactly when the number of grid points
is even or equal to one; on every odd count of at least 3 it returns the
sum, over the triples of grid points starting at the even indices 2k, of
the closed-form integral of the quadratic fitted through the triple. -/
theorem integrate_composite_simpsons_rule_spec (gf : GridFunction)
    (hlen : gf.grid.grid_points.length ≤ gf.function_values.length) :
    (integrate_composite_simpsons_rule gf = none ↔
      gf.grid.grid_points.length % 2 = 0 ∨ gf.grid.grid_points.length = 1) ∧
    (gf.grid.grid_points.length % 2 = 1 → 3 ≤ gf.grid.grid_points.length →
      integrate_composite_simpsons_rule gf =
        some (∑ k in Finset.range ((gf.grid.grid_points.length - 1) / 2),
          simpsonTriple gf.grid.grid_points gf.function_values (2 * k))) := by
  obtain ⟨⟨xs⟩, fs⟩ := gf
  dsimp only at hlen ⊢
  have hsome : xs.length % 2 = 1 → xs.length ≠ 1 →
      integrate_composite_simpsons_rule ⟨⟨xs⟩, fs⟩ =
        some (∑ k in Finset.range ((xs.length - 1) / 2),
          simpsonTriple xs fs (2 * k)) := by
    intro hodd h1
    rw [integrate_composite_simpsons_rule]
    dsimp only
    rw [if_neg (by omega), if_neg (by omega), if_neg (by omega)]
    rw [sum_map_range'_two]
    congr 1
    exact Finset.sum_congr rfl (fun k _ => by congr 1; omega)
  constructor
  · constructor
    · intro h
      by_contra hc
      push_neg at hc
      obtain ⟨hodd, h1⟩ := hc
      have hodd' : xs.length % 2 = 1 := by omega
      rw [hsome hodd' h1] at h
      exact Option.some_ne_none _ h
    · rintro (heven | hone)
      · rw [integrate_composite_simpsons_rule]
        dsimp only
        rw [if_pos heven]
      · rw [integrate_composite_simpsons_rule]
        dsimp only
        rw [if_neg (by omega), if_pos (by omega)]
  · intro hodd h3
    exact hsome hodd (by omega)

/-- C2 witness: Simpson integration of x ^ 2 sampled on the odd 3-point
grid 0, 1/2, 1 returns the per-triple quadratic integral sum, which
evaluates to 1/3. -/
theorem integrate_composite_simpsons_rule_spec_witness :
    (([0, 1/2, 1] : List ℚ).length ≤ ([0, 1/4, 1] : List ℚ).length) ∧
    (3 : Nat) % 2 = 1 ∧ 3 ≤ 3 ∧
    integrate_composite_simpsons_rule ⟨⟨[0, 1/2, 1]⟩, [0, 1/4, 1]⟩ =
      some (∑ k in Finset.range 1, simpsonTriple [0, 1/2, 1] [0, 1/4, 1] (2 * k)) := by
  refine ⟨by norm_num, rfl, by norm_num, ?_⟩
  exact (integrate_composite_simpsons_rule_spec ⟨⟨[0, 1/2, 1]⟩, [0, 1/4, 1]⟩
    (by norm_num)).2 rfl (by norm_num)

theorem newtons_method_step_grid (de_func : GridFunction → GridFunction)
    (gf : GridFunction) (bcs : BoundaryConditions) (step : ℚ)
    (r : GridFunction) (h : newtons_method_step de_func gf bcs step = some r) :
    r.grid = gf.grid := by
  simp only [newtons_method_step, Option.bind_eq_some] at h
  obtain ⟨J, hJ, res, hres, upd, hupd, hr⟩ := h
  cases hr
  rfl

/-- C4. Every successful Newton step keeps the grid of its input trial, and
hence every successful run of the Newton driver returns a GridFunction
holding the grid of the initial guess; only the function values change. -/
theorem newton_grid_preserved (de_func : GridFunction → GridFunction)
    (bcs : BoundaryConditions) :
    (∀ (gf : GridFunction) (step : ℚ) (r : GridFunction),
      newtons_method_step de_func gf bcs step = some r → r.grid = gf.grid) ∧
    (∀ (g0 : GridFunction) (num_iterations : Nat) (r : GridFunction),
      newtons_method de_func bcs g0 num_iterations = some r →
        r.grid = g0.grid) := by
  refine ⟨fun gf step r h => newtons_method_step_grid de_func gf bcs step r h,
    fun g0 num_iterations => ?_⟩
  induction num_iterations generalizing g0 with
  | zero =>
    intro r h
    simp only [newtons_method] at h
    cases h
    rfl
  | succ k ih =>
    intro r h
    simp only [newtons_method, Option.bind_eq_some] at h
    obtain ⟨g1, hstep, hrest⟩ := h
    rw [ih g1 r hrest]
    exact newtons_method_step_grid de_func g0 bcs _ g1 hstep

/-- C4 witness: one Newton iteration on a concrete two-point problem
succeeds and keeps the grid of the initial guess. -/
theorem newton_grid_preserved_witness :
    newtons_method (fun g => g) ⟨0, 0⟩ ⟨⟨[0, 1]⟩, [1, 2]⟩ 1 =
      some ⟨⟨[0, 1]⟩, [2, 4]⟩ ∧
    (⟨⟨[0, 1]⟩, [2, 4]⟩ : GridFunction).grid =
      (⟨⟨[0, 1]⟩, [1, 2]⟩ : GridFunction).grid := by
  have heval : newtons_method (fun g => g) ⟨0, 0⟩ ⟨⟨[0, 1]⟩, [1, 2]⟩ 1 =
      some ⟨⟨[0, 1]⟩, [2, 4]⟩ := by
    norm_num [newtons_method, newtons_method_step, get_jacobian_matrix,
      get_residual_vector, jacobianEntry, perturbValue, solve_linear_system,
      gaussTriangular, pivotSplit, elimRow, backSubst, dotProd, gD, optionMap,
      List.range_succ, Option.bind]
  exact ⟨heval,
    (newton_grid_preserved (fun g => g) ⟨0, 0⟩).2 ⟨⟨[0, 1]⟩, [1, 2]⟩ 1
      ⟨⟨[0, 1]⟩, [2, 4]⟩ heval⟩

/-- C10. Calling the Newton driver with an iteration count of zero returns
the initial guess unchanged, grid and values alike. -/
theorem newtons_method_zero_iterations (de_func : GridFunction → GridFunction)
    (bcs : BoundaryConditions) (g0 : GridFunction) :
    newtons_method de_func bcs g0 0 = some g0 :=
  rfl

theorem backSubst_length : ∀ rows : List (List ℚ × ℚ),
    (backSubst rows).length = rows.length
  | [] => rfl
  | r :: rs => by
    simp only [backSubst, List.length_cons]
    rw [backSubst_length rs]

theorem gaussTriangular_length :
    ∀ (k : Nat) (rows tri : List (List ℚ × ℚ)),
      gaussTriangular k rows = some tri → tri.length = k := by
  intro k
  induction k with
  | zero =>
    intro rows tri h
    simp only [gaussTriangular] at h
    cases h
    rfl
  | succ k ih =>
    intro rows tri h
    simp only [gaussTriangular, Option.bind_eq_some] at h
    obtain ⟨pr, hpr, tri', htri', heq⟩ := h
    cases heq
    simp only [List.length_cons, ih _ tri' htri']

theorem solve_linear_system_length (matrix vector : List ℚ) (n : Nat)
    (u : List ℚ) (h : solve_linear_system matrix vector n = some u) :
    u.length = n := by
  rw [solve_linear_system] at h
  split_ifs at h with hc
  rw [Option.map_eq_some'] at h
  obtain ⟨tri, htri, hback⟩ := h
  rw [← hback, backSubst_length, gaussTriangular_length n _ tri htri]

theorem newtons_method_step_values_length
    (de_func : GridFunction → GridFunction) (gf : GridFunction)
    (bcs : BoundaryConditions) (step : ℚ) (r : GridFunction)
    (h : newtons_method_step de_func gf bcs step = some r) :
    r.function_values.length = gf.function_values.length := by
  simp only [newtons_method_step, Option.bind_eq_some] at h
  obtain ⟨J, hJ, res, hres, upd, hupd, hr⟩ := h
  cases hr
  have hu : upd.length = gf.function_values.length :=
    solve_linear_system_length _ _ _ _ hupd
  simp only [List.length_zipWith, hu, Nat.min_self]

theorem forward_difference_derivative_shape (gf r : GridFunction)
    (h : forward_difference_derivative gf = some r) :
    r.grid = gf.grid ∧
      r.function_values.length = gf.grid.grid_points.length := by
  rw [forward_difference_derivative] at h
  by_cases hc : 2 ≤ gf.grid.grid_points.length ∧
      gf.grid.grid_points.length ≤ gf.function_values.length
  · rw [if_pos hc] at h
    cases h
    refine ⟨rfl, ?_⟩
    simp only [List.length_cons, List.length_append, List.length_map,
      List.length_range', List.length_singleton, List.length_nil]
    omega
  · rw [if_neg hc] at h
    exact absurd h (by simp)

theorem central_difference_derivative_shape (gf r : GridFunction)
    (h : central_difference_derivative gf = some r) :
    r.grid = gf.grid ∧
      r.function_values.length = gf.grid.grid_points.length := by
  rw [central_difference_derivative] at h
  by_cases hc : 2 ≤ gf.grid.grid_points.length ∧
      gf.grid.grid_points.length ≤ gf.function_values.length
  · rw [if_pos hc] at h
    cases h
    refine ⟨rfl, ?_⟩
    simp only [List.length_cons, List.length_append, List.length_map,
      List.length_range', List.length_singleton, List.length_nil]
    omega
  · rw [if_neg hc] at h
    exact absurd h (by simp)

/-- C9. Every GridFunction-producing operation preserves the invariant that
the value sequence is as long as the grid: the two constructors
unconditionally, and the arithmetic operations, the two difference
operators and a successful Newton step whenever their GridFunction inputs
satisfy it. -/
theorem grid_function_invariant (grid : Grid) (func : ℚ → ℚ) (scalar c : ℚ)
    (f g : GridFunction) (de_func : GridFunction → GridFunction)
    (bcs : BoundaryConditions) (step : ℚ)
    (hf : f.function_values.length = f.grid.grid_points.length)
    (_hg : g.function_values.length = g.grid.grid_points.length) :
    ((new_grid_function grid func).function_values.length =
      (new_grid_function grid func).grid.grid_points.length) ∧
    ((new_constant_grid_function grid c).function_values.length =
      (new_constant_grid_function grid c).grid.grid_points.length) ∧
    ((f.add g).function_values.length =
      (f.add g).grid.grid_points.length) ∧
    ((f.subtract g).function_values.length =
      (f.subtract g).grid.grid_points.length) ∧
    ((f.multiply g).function_values.length =
      (f.multiply g).grid.grid_points.length) ∧
    ((f.divide g).function_values.length =
      (f.divide g).grid.grid_points.length) ∧
    ((f.scale scalar).function_values.length =
      (f.scale scalar).grid.grid_points.length) ∧
    (∀ r, forward_difference_derivative f = some r →
      r.function_values.length = r.grid.grid_points.length) ∧
    (∀ r, central_difference_derivative f = some r →
      r.function_values.length = r.grid.grid_points.length) ∧
    (∀ r, newtons_method_step de_func f bcs step = some r →
      r.function_values.length = r.grid.grid_points.length) := by
  refine ⟨by simp [new_grid_function], by simp [new_constant_grid_function],
    (elementwise_values_length _ f g).trans hf,
    (elementwise_values_length _ f g).trans hf,
    (elementwise_values_length _ f g).trans hf,
    (elementwise_values_length _ f g).trans hf,
    by simpa [GridFunction.scale] using hf, ?_, ?_, ?_⟩
  · intro r h
    obtain ⟨hgrid, hlen⟩ := forward_difference_derivative_shape f r h
    rw [hlen, hgrid]
  · intro r h
    obtain ⟨hgrid, hlen⟩ := central_difference_derivative_shape f r h
    rw [hlen, hgrid]
  · intro r h
    have h1 := newtons_method_step_values_length de_func f bcs step r h
    have h2 := newtons_method_step_grid de_func f bcs step r h
    rw [h1, hf, h2]

/-- C9 witness: the invariant instantiated on concrete inputs, checked on
the add operation and on a successful Newton step. -/
theorem grid_function_invariant_witness :
    (([1, 2] : List ℚ).length = ([0, 1] : List ℚ).length) ∧
    ((⟨⟨[0, 1]⟩, [1, 2]⟩ : GridFunction).add
        ⟨⟨[0, 1]⟩, [1, 2]⟩).function_values.length =
      ((⟨⟨[0, 1]⟩, [1, 2]⟩ : GridFunction).add
        ⟨⟨[0, 1]⟩, [1, 2]⟩).grid.grid_points.length ∧
    (∀ r, newtons_method_step (fun g => g) ⟨⟨[0, 1]⟩, [1, 2]⟩ ⟨0, 0⟩ 1 =
        some r →
      r.function_values.length = r.grid.grid_points.length) := by
  have h := grid_function_invariant ⟨[0]⟩ (fun x => x) 2 3
    ⟨⟨[0, 1]⟩, [1, 2]⟩ ⟨⟨[0, 1]⟩, [1, 2]⟩ (fun g => g) ⟨0, 0⟩ 1 rfl rfl
  exact ⟨rfl, h.2.2.1, h.2.2.2.2.2.2.2.2.2⟩

/-- C1. The claim says a Newton step adds the solution of
J * delta = -residual to the trial. On a concrete two-point problem the
assembled Jacobian is the identity and the residual is [1, 2]; the solution
of J * delta = -residual is [-1, -2], so the claim predicts updated values
[0, 0], but the code solves J * delta = +residual and returns [2, 4]. -/
theorem newtons_method_step_sign_divergence :
    get_jacobian_matrix (fun g => g) ⟨⟨[0, 1]⟩, [1, 2]⟩ 1 =
      some [1, 0, 0, 1] ∧
    get_residual_vector (fun g => g) ⟨⟨[0, 1]⟩, [1, 2]⟩ ⟨0, 0⟩ =
      some [1, 2] ∧
    matVecMul [1, 0, 0, 1] 2 [-1, -2] = [-1, -2] ∧
    List.zipWith (fun x y => x + y) [(1 : ℚ), 2] [-1, -2] = [0, 0] ∧
    newtons_method_step (fun g => g) ⟨⟨[0, 1]⟩, [1, 2]⟩ ⟨0, 0⟩ 1 =
      some ⟨⟨[0, 1]⟩, [2, 4]⟩ ∧
    (⟨⟨[0, 1]⟩, [2, 4]⟩ : GridFunction) ≠ ⟨⟨[0, 1]⟩, [0, 0]⟩ := by
  refine ⟨?_, ?_, ?_, ?_, ?_, ?_⟩ <;>
    norm_num [newtons_method_step, get_jacobian_matrix, get_residual_vector,
      jacobianEntry, perturbValue, solve_linear_system, gaussTriangular,
      pivotSplit, elimRow, backSubst, dotProd, gD, optionMap, matVecMul,
      List.range_succ, Option.bind]

end NumMethods
